import Mathlib

/-!
Verification of the logging engine in lib/Basics/logging.cpp and
lib/Basics/Logger.h (m0ppers/arangodb), via a shallow embedding.

Conventions of the embedding:
* machine integers are modelled as Nat (sizes, ids) or Int (file
  descriptors, write results); overflow is irrelevant at the widths involved
  except where noted in comments;
* the global mutable state touched by a function is passed explicitly and
  returned updated;
* I/O side effects (writes to stderr, messages handed to the queue, appender
  invocations) are collected in an explicit trace structure;
* memory-allocation failures inside the ring-buffer store and the query
  (which merely cause an entry to be skipped) are not modelled; the
  allocation that the format-growth loop performs IS modelled, because the
  source branches on it.
-/

/-- Modelled from the spec: the C enum TRI_log_level_e lives in the header
logging.h, which is not part of the excerpt.  The spec lists the six levels
"FATAL, ERROR, WARNING, INFO, DEBUG, TRACE (ordered, lower = more severe)" and
describes "six independent ring buffers (one per level)"; logging.cpp casts a
level directly to a ring index in StoreOutput and TRI_BufferLogging, so the
levels are numbered 0..5 in severity order, FATAL most severe. -/
inductive TRI_log_level_e where
  | FATAL
  | ERROR
  | WARNING
  | INFO
  | DEBUG
  | TRACE
deriving DecidableEq, Repr

/-- The value of the cast (size_t)level applied to a TRI_log_level_e. -/
def levelIndex : TRI_log_level_e → Nat
  | .FATAL => 0
  | .ERROR => 1
  | .WARNING => 2
  | .INFO => 3
  | .DEBUG => 4
  | .TRACE => 5

/-- Modelled from the spec: the C enum TRI_log_severity_e also lives in the
missing header logging.h.  The spec lists the severities "HUMAN, EXCEPTION,
FUNCTIONAL, USAGE, TECHNICAL, DEVELOPMENT, UNKNOWN"; logging.cpp only ever
compares severities for equality, so the numeric values are immaterial. -/
inductive TRI_log_severity_e where
  | EXCEPTION
  | TECHNICAL
  | FUNCTIONAL
  | DEVELOPMENT
  | USAGE
  | HUMAN
  | UNKNOWN
deriving DecidableEq, Repr

/-! ## Logger.h: LogLevel, LogTopic and the level gate (Logger::isEnabled) -/

/-- Basics/Logger.h lines 73-81: enum class LogLevel. -/
inductive LogLevel where
  | DEFAULT
  | FATAL
  | ERR
  | WARN
  | INFO
  | DEBUG
  | TRACE
deriving DecidableEq, Repr

/-- The value of the cast (int)level applied to a LogLevel
(DEFAULT = 0, FATAL = 1, ..., TRACE = 6; all values non-negative). -/
def LogLevel.toNat : LogLevel → Nat
  | .DEFAULT => 0
  | .FATAL => 1
  | .ERR => 2
  | .WARN => 3
  | .INFO => 4
  | .DEBUG => 5
  | .TRACE => 6

/-- Basics/Logger.h lines 90-119: class LogTopic (id, name, atomic level
override).  The atomic load/store collapse to a plain field here. -/
structure LogTopic where
  id : Nat
  name : String
  level : LogLevel

/-- Basics/Logger.h lines 271-273: the one-argument Logger::isEnabled,
comparing against the global atomic level (passed explicitly). -/
def Logger.isEnabled (globalLevel : LogLevel) (level : LogLevel) : Bool :=
  decide (level.toNat ≤ globalLevel.toNat)

/-- Basics/Logger.h lines 279-283: the two-argument Logger::isEnabled,
using the topic override unless it is DEFAULT. -/
def Logger.isEnabledTopic (globalLevel : LogLevel) (level : LogLevel)
    (topic : LogTopic) : Bool :=
  decide (level.toNat ≤
    (if topic.level = LogLevel.DEFAULT then globalLevel else topic.level).toNat)

/-! ## logging.cpp: per-level ring buffers of recent messages -/

/-- logging.cpp line 185: OUTPUT_MAX_LENGTH. -/
def OUTPUT_MAX_LENGTH : Nat := 256

/-- logging.cpp line 191: OUTPUT_BUFFER_SIZE. -/
def OUTPUT_BUFFER_SIZE : Nat := 1024

/-- logging.cpp line 197: OUTPUT_LOG_LEVELS. -/
def OUTPUT_LOG_LEVELS : Nat := 6

/-- TRI_log_buffer_t: one ring entry (lid, level, timestamp, text).
The text pointer is modelled as Option String; the zero-initialized static
array corresponds to lid 0 and text none. -/
structure TRI_log_buffer_t where
  lid : Nat
  level : TRI_log_level_e
  timestamp : Nat
  text : Option String
deriving DecidableEq, Repr

/-- The static ring-buffer state of logging.cpp: BufferLID (line 203),
BufferCurrent (line 209) and BufferOutput (line 215), the latter two indexed
by ring (= level) index and slot index. -/
structure RingsState where
  bufferLID : Nat
  bufferCurrent : Nat → Nat
  bufferOutput : Nat → Nat → TRI_log_buffer_t

/-- The zero-initialized static state: BufferLID = 1, all positions 0, all
slots with lid 0 and null text. -/
def initRings : RingsState :=
  ⟨1, fun _ => 0, fun _ _ => ⟨0, .FATAL, 0, none⟩⟩

/-- logging.cpp lines 293-350, StoreOutput: append one message to the ring of
its level.  The position is advanced first and the entry written at the new
position; over-long texts are truncated to OUTPUT_MAX_LENGTH bytes with a
trailing " ..." marker; the entry receives the current BufferLID, which is
then incremented. -/
def StoreOutput (st : RingsState) (level : TRI_log_level_e) (timestamp : Nat)
    (text : String) : RingsState :=
  let pos := levelIndex level
  if OUTPUT_LOG_LEVELS ≤ pos then st
  else
    let msg :=
      if OUTPUT_MAX_LENGTH < text.length then
        text.take (OUTPUT_MAX_LENGTH - 4) ++ " ..."
      else text
    let cur := (st.bufferCurrent pos + 1) % OUTPUT_BUFFER_SIZE
    ⟨st.bufferLID + 1,
     fun i => if i = pos then cur else st.bufferCurrent i,
     fun i j =>
       if i = pos ∧ j = cur then ⟨st.bufferLID, level, timestamp, some msg⟩
       else st.bufferOutput i j⟩

/-- N successive StoreOutput calls at a fixed level, starting from the
zero-initialized state; the i-th call (1-based) stores timestamp (f i).1 and
text (f i).2. -/
def storeMany (level : TRI_log_level_e) (f : Nat → Nat × String) : Nat → RingsState
  | 0 => initRings
  | n + 1 => StoreOutput (storeMany level f n) level (f (n + 1)).1 (f (n + 1)).2

/-- The ring entry that the i-th StoreOutput call of storeMany produces:
its lid is i (BufferLID starts at 1 and is incremented once per call). -/
def ringEntry (level : TRI_log_level_e) (f : Nat → Nat × String) (i : Nat) :
    TRI_log_buffer_t :=
  ⟨i, level, (f i).1,
   some (if OUTPUT_MAX_LENGTH < (f i).2.length then
           (f i).2.take (OUTPUT_MAX_LENGTH - 4) ++ " ..."
         else (f i).2)⟩

/-- logging.cpp lines 356-361, LidCompare: the qsort comparator.  It returns
the int64 difference of the lids truncated to a C int (32 bits); the
truncation is the (int) cast on the difference. -/
def LidCompare (l r : TRI_log_buffer_t) : Int :=
  (((l.lid : Int) - (r.lid : Int) + 2 ^ 31) % 2 ^ 32) - 2 ^ 31

/-- The collection filter of TRI_BufferLogging (line 966):
lid at or above the start id, text present and non-empty. -/
def bufferKeep (start : Nat) (buf : TRI_log_buffer_t) : Bool :=
  decide (start ≤ buf.lid) &&
    (match buf.text with
     | some s => !s.isEmpty
     | none => false)

/-- logging.cpp lines 936-981, TRI_BufferLogging: collect the entries of the
rings from index begin to pos (all rings up to the level when useUpto, only
the level's ring otherwise), walking each ring from the slot after the
current one, keeping entries per bufferKeep, and sort the result by lid.

The level parameter is the value of the (size_t)level cast, so it may lie
outside the enum range; it is clamped to the last ring.  qsort with
LidCompare is modelled as a comparison sort driven by the source comparator:
an entry a is placed before b when LidCompare a b ≤ 0 (qsort places a before
b when the comparator is negative and may keep either order on 0; a
comparison sort with the same comparator realizes one allowed outcome).
Note that LidCompare truncates the int64 lid difference to a 32-bit int, so
for lids at least 2^31 apart the comparator does NOT order by lid
(lemma LidCompare_nonpos below gives exactness below that gap). -/
def TRI_BufferLogging (st : RingsState) (level : Nat) (start : Nat)
    (useUpto : Bool) : List TRI_log_buffer_t :=
  let pos := if OUTPUT_LOG_LEVELS ≤ level then OUTPUT_LOG_LEVELS - 1 else level
  let first := if useUpto then 0 else pos
  let collected :=
    (List.range' first (pos + 1 - first)).flatMap fun i =>
      (List.range OUTPUT_BUFFER_SIZE).filterMap fun j =>
        let buf := st.bufferOutput i ((st.bufferCurrent i + j) % OUTPUT_BUFFER_SIZE)
        if bufferKeep start buf then some buf else none
  collected.mergeSort fun a b => decide (LidCompare a b ≤ 0)

/-- A ring state whose FATAL ring retains two entries with lids 2^31 + 1
apart.  Reachable in principle because BufferLID is global across the six
rings: a first FATAL message is stored early (lid 1, written at slot 1),
then more than 2^31 messages go to other rings, then a second FATAL message
is stored (lid 2^31 + 2, at slot 2); BufferCurrent[0] is then 2 and
BufferLID 2^31 + 3.  The other rings are left empty here - their contents
are irrelevant to a non-cumulative FATAL-level query. -/
def lidGapState : RingsState :=
  ⟨2 ^ 31 + 3,
   fun i => if i = 0 then 2 else 0,
   fun i j =>
     if i = 0 ∧ j = 1 then ⟨1, .FATAL, 0, some "a"⟩
     else if i = 0 ∧ j = 2 then ⟨2 ^ 31 + 2, .FATAL, 0, some "b"⟩
     else ⟨0, .FATAL, 0, none⟩⟩

/-- LidCompare agrees with the lid order as long as the two lids differ by
less than 2^31 (the int truncation in the comparator is then exact). -/
theorem LidCompare_nonpos (l r : TRI_log_buffer_t)
    (h : (l.lid : Int) - (r.lid : Int) < 2 ^ 31)
    (h2 : (r.lid : Int) - (l.lid : Int) < 2 ^ 31) :
    (LidCompare l r ≤ 0 ↔ l.lid ≤ r.lid) := by
  unfold LidCompare
  constructor
  · intro hle
    by_contra hlt
    push_neg at hlt
    have hgt : (1 : Int) ≤ (l.lid : Int) - (r.lid : Int) := by
      omega
    rw [Int.emod_eq_of_lt (by omega) (by omega)] at hle
    omega
  · intro hle
    have : (l.lid : Int) ≤ (r.lid : Int) := by exact_mod_cast hle
    rw [Int.emod_eq_of_lt (by omega) (by omega)]
    omega

/-! ## logging.cpp: appenders and the dispatch loop -/

/-- logging.cpp, TRI_IsContainedString (declared in tri-strings.h): strstr
semantics, true iff the needle occurs as a contiguous substring of the
haystack (the empty needle always matches). -/
def listContainsSub (hay pat : List Char) : Bool :=
  pat.isPrefixOf hay ||
    match hay with
    | [] => false
    | _ :: t => listContainsSub t pat

/-- String wrapper for listContainsSub. -/
def TRI_IsContainedString (hay pat : String) : Bool :=
  listContainsSub hay.toList pat.toList

/-- TRI_log_appender_t (logging.cpp lines 110-128): the base appender state
that the dispatch loop reads - content filter, severity filter, consume
flag.  The virtual logMessage of the concrete appender is not invoked by the
model; the dispatch function instead returns the appenders invoked, in
order. -/
structure Appender where
  contentFilter : Option String
  severityFilter : TRI_log_severity_e
  consume : Bool
deriving DecidableEq, Repr

/-- The appender dispatch loop of logging.cpp, lines 571-590 (synchronous
branch of OutputMessage) and, textually identical, lines 630-650 (the
per-message loop of MessageQueueWorker): walk the registered appenders in
order, skip an appender whose severity filter is set and differs from the
message severity, skip an appender whose content filter is set and not
contained in the message, otherwise invoke logMessage, and stop after the
first invoked appender whose consume flag is set.  Returns the appenders
whose logMessage is invoked, in invocation order. -/
def appenderLoop (appenders : List Appender) (severity : TRI_log_severity_e)
    (message : String) : List Appender :=
  match appenders with
  | [] => []
  | a :: rest =>
    if a.severityFilter ≠ TRI_log_severity_e.UNKNOWN ∧ a.severityFilter ≠ severity then
      appenderLoop rest severity message
    else if (match a.contentFilter with
             | some f => !TRI_IsContainedString message f
             | none => false) then
      appenderLoop rest severity message
    else if a.consume then [a]
    else a :: appenderLoop rest severity message

/-- The combined match predicate of the two skip tests: an appender receives
a message iff its severity filter is UNKNOWN or equals the message severity,
and its content filter, if set, is contained in the message. -/
def appenderMatches (a : Appender) (severity : TRI_log_severity_e)
    (message : String) : Bool :=
  (decide (a.severityFilter = TRI_log_severity_e.UNKNOWN) ||
   decide (a.severityFilter = severity)) &&
    (match a.contentFilter with
     | some f => TRI_IsContainedString message f
     | none => true)

/-- The consume-chain: every appender of the list up to and including the
first one with the consume flag set. -/
def upToConsume : List Appender → List Appender
  | [] => []
  | a :: t => if a.consume then [a] else a :: upToConsume t

/-! ## logging.cpp: OutputMessage, LogThread, TRI_Log -/

/-- One message handed to the delivery queue (the payload of log_message_t
that the worker later dispatches). -/
structure QueuedMsg where
  level : TRI_log_level_e
  severity : TRI_log_severity_e
  message : String
deriving DecidableEq, Repr

/-- The observable effects of one emission path:
* stderrWrites - lines written to stderr via WriteStderr (logging.cpp lines
  502-511; the level selects the color: red for FATAL/ERROR, yellow for
  WARNING, plain otherwise);
* enqueued - messages appended to LogMessageQueue (threaded mode);
* dispatched - appenders invoked via appenderLoop (synchronous mode);
* tooLarge - when set, the recursive TRI_Log call that reports
  "log message is too large (%d bytes)" fired, with the byte count;
* formatWarning - the recursive TRI_Log call reporting a corrupt format
  string fired. -/
structure OMTrace where
  stderrWrites : List (TRI_log_level_e × String)
  enqueued : List QueuedMsg
  dispatched : List Appender
  tooLarge : Option Nat
  formatWarning : Bool
deriving DecidableEq, Repr

/-- The empty trace: no observable effect. -/
def emptyTrace : OMTrace := ⟨[], [], [], none, false⟩

/-- The global state that OutputMessage and TRI_Log read: LoggingActive
(line 281), ThreadedLogging (line 287), Appenders (line 173) and the ring
buffers. -/
structure LogGlobals where
  loggingActive : Bool
  threadedLogging : Bool
  appenders : List Appender
  rings : RingsState

/-- logging.cpp lines 517-596, OutputMessage: if logging is inactive, write
the message to stderr and return; otherwise store HUMAN-severity messages
into the ring buffer of the level (from the body offset on); then, if no
appender is registered, write to stderr and return; otherwise either enqueue
the message (threaded mode) or run the appender dispatch loop
(synchronous mode).  now stands for time(0). -/
def OutputMessage (g : LogGlobals) (now : Nat) (level : TRI_log_level_e)
    (severity : TRI_log_severity_e) (message : String) (offset : Nat) :
    LogGlobals × OMTrace :=
  if g.loggingActive = false then
    (g, ⟨[(level, message)], [], [], none, false⟩)
  else
    let g1 : LogGlobals :=
      if severity = TRI_log_severity_e.HUMAN then
        ⟨g.loggingActive, g.threadedLogging, g.appenders,
         StoreOutput g.rings level now (message.drop offset)⟩
      else g
    if g.appenders = [] then
      (g1, ⟨[(level, message)], [], [], none, false⟩)
    else if g.threadedLogging then
      (g1, ⟨[], [⟨level, severity, message⟩], [], none, false⟩)
    else
      (g1, ⟨[], [], appenderLoop g.appenders severity message, none, false⟩)

/-- logging.cpp lines 759-816, the heap-growth loop of LogThread.  The
renderer (GenerateMessage, lines 367-496) is modelled through its snprintf
contract: on every call with the same arguments it deterministically reports
the same required length s.length and, given a large enough buffer, writes
the full text s; hence the regenerated length m always equals s.length and
the "m > n, try again" branch of the source is entered at most when the
loop was started below the true length (it terminates because n strictly
grows).  alloc models TRI_Allocate: whether allocating the given number of
bytes succeeds.  While n is below the 100 KB ceiling the loop allocates and
re-renders; an allocation failure produces the recursive
"log message is too large" diagnostic (trace marker); reaching the ceiling
leaves the loop and returns without any effect.  The source guard
m + len - 1 > 0 is size_t arithmetic, false exactly when m + len = 1. -/
def LogThread_grow (g : LogGlobals) (now : Nat) (level : TRI_log_level_e)
    (severity : TRI_log_severity_e) (s : String) (offset : Nat)
    (timeStr : String) (alloc : Nat → Bool) (n : Nat) : LogGlobals × OMTrace :=
  if h : n < 100 * 1024 then
    if alloc (n + timeStr.length + 2) then
      let m := s.length
      if hm : n < m then
        LogThread_grow g now level severity s offset timeStr alloc m
      else if m + timeStr.length = 1 then (g, emptyTrace)
      else OutputMessage g now level severity (timeStr ++ s) (offset + timeStr.length)
    else (g, ⟨[], [], [], some (n + timeStr.length), false⟩)
  else (g, emptyTrace)
termination_by 100 * 1024 - n
decreasing_by omega

/-- logging.cpp lines 699-817, LogThread: render the time prefix (timeStr,
at most 31 bytes from strftime) and the message.  fmt models the outcome of
rendering the format string: none when GenerateMessage reports an error
(corrupt format string; a disarmed warning is logged, trace marker), some
(s, offset) when the full rendered text is s with the caller body starting
at offset.  If the required length fits the remainder of the 2048-byte
stack buffer the message is emitted directly; otherwise the growth loop
runs. -/
def LogThread (g : LogGlobals) (now : Nat) (level : TRI_log_level_e)
    (severity : TRI_log_severity_e) (fmt : Option (String × Nat))
    (timeStr : String) (alloc : Nat → Bool) : LogGlobals × OMTrace :=
  match fmt with
  | none => (g, ⟨[], [], [], none, true⟩)
  | some (s, offset) =>
    let n := s.length
    if n < 2048 - timeStr.length then
      OutputMessage g now level severity (timeStr ++ s) (offset + timeStr.length)
    else LogThread_grow g now level severity s offset timeStr alloc n

/-- logging.cpp lines 905-930, TRI_Log: if LoggingActive is false, return
immediately (no output of any kind); otherwise format and emit via
LogThread. -/
def TRI_Log (g : LogGlobals) (now : Nat) (level : TRI_log_level_e)
    (severity : TRI_log_severity_e) (fmt : Option (String × Nat))
    (timeStr : String) (alloc : Nat → Bool) : LogGlobals × OMTrace :=
  if g.loggingActive = false then (g, emptyTrace)
  else LogThread g now level severity fmt timeStr alloc

/-! ## logging.cpp: MessageQueueWorker idle backoff -/

/-- logging.cpp lines 602-660, the sleep-interval bookkeeping of
MessageQueueWorker: sl starts at 100 (microseconds); when the swapped-out
buffer is empty, sl grows by 1000 and is capped at 1000000; after processing
a non-empty batch it is reset to 100. -/
def MessageQueueWorker_slStep (sl : Nat) (bufferEmpty : Bool) : Nat :=
  if bufferEmpty then
    let s := sl + 1000
    if 1000000 < s then 1000000 else s
  else 100

/-- The interval after k consecutive empty iterations, starting from the
initial value 100 of the worker loop. -/
def MessageQueueWorker_slIter : Nat → Nat
  | 0 => 100
  | k + 1 => MessageQueueWorker_slStep (MessageQueueWorker_slIter k) true

/-! ## logging.cpp: the file appender - reopen and the write loop -/

/-- log_appender_file_t (logging.cpp lines 1002-1024): the base appender
fields plus filename (empty when the descriptor aliases stdout/stderr), the
atomic file descriptor, and the fatal2stderr flag. -/
structure FileAppender where
  base : Appender
  filename : String
  fd : Int
  fatal2stderr : Bool
deriving DecidableEq, Repr

/-- A flat model of the file system: each existing path maps to the identity
of the file stored there. -/
def FileSys := String → Option Nat

/-- TRI_UnlinkFile: remove the path if present. -/
def TRI_UnlinkFile (fs : FileSys) (p : String) : FileSys :=
  fun q => if q = p then none else fs q

/-- TRI_RenameFile: move the file at src to dst (overwriting dst); no
change when src does not exist.  The source ignores the return value. -/
def TRI_RenameFile (fs : FileSys) (src dst : String) : FileSys :=
  match fs src with
  | none => fs
  | some a => fun q => if q = dst then some a else if q = src then none else fs q

/-- logging.cpp lines 1117-1146, log_appender_file_t::reopenLog.  Returns
the updated appender, the updated file system, and the list of descriptors
closed.  newFd models the result of TRI_CREATE on the original path (negative
on failure) and newId the identity of the file it creates on success.
No-op when the filename is empty (console-aliased appender) or the
descriptor does not exceed STDERR_FILENO (= 2).  Otherwise: remove a stale
.old backup, rename the live file to the backup name, open a fresh file; on
open failure rename the backup back and keep the old descriptor; on success
swap the descriptor atomically and close the old one. -/
def reopenLog (app : FileAppender) (fs : FileSys) (newFd : Int) (newId : Nat) :
    FileAppender × FileSys × List Int :=
  if app.filename = "" then (app, fs, [])
  else if app.fd ≤ 2 then (app, fs, [])
  else
    let backup := app.filename ++ ".old"
    let fs2 := TRI_RenameFile (TRI_UnlinkFile fs backup) app.filename backup
    if newFd < 0 then (app, TRI_RenameFile fs2 backup app.filename, [])
    else (⟨app.base, app.filename, newFd, app.fatal2stderr⟩,
          fun q => if q = app.filename then some newId else fs2 q,
          [app.fd])

/-- The loop state of log_appender_file_t::writeLogFile: the remaining byte
count and the giveUp flag. -/
structure WriteState where
  len : Int
  giveUp : Bool
deriving DecidableEq, Repr

/-- The result of one loop iteration: an error return (n < 0, reported only
to stderr via fprintf) or the next loop state. -/
inductive WriteStepRes where
  | err
  | next (st : WriteState)
deriving DecidableEq, Repr

/-- logging.cpp lines 1186-1208, one iteration of the write loop of
log_appender_file_t::writeLogFile, given the result n of TRI_WRITE:
negative n returns after an fprintf to stderr; a first zero-length write
sets giveUp and retries (continue); any other result - including a
zero-length write with giveUp already set - advances the buffer and
decreases len by n. -/
def writeLogFile_step (st : WriteState) (n : Int) : WriteStepRes :=
  if n < 0 then .err
  else if n = 0 ∧ st.giveUp = false then .next ⟨st.len, true⟩
  else .next ⟨st.len - n, st.giveUp⟩

/-- The outcome of running the write loop for a bounded number of
iterations: completed (len exhausted), error return, or still looping. -/
inductive WriteRunRes where
  | ok
  | err
  | looping (st : WriteState)
deriving DecidableEq, Repr

/-- Run the write loop, taking the i-th TRI_WRITE result from w, for at most
fuel iterations. -/
def writeLogFile_run (w : Nat → Int) : Nat → Nat → WriteState → WriteRunRes
  | 0, _, st => if st.len ≤ 0 then .ok else .looping st
  | fuel + 1, i, st =>
    if st.len ≤ 0 then .ok
    else
      match writeLogFile_step st (w i) with
      | .err => .err
      | .next st2 => writeLogFile_run w fuel (i + 1) st2

/-- The write loop terminates on the TRI_WRITE result sequence w from the
initial state st: some bounded number of iterations reaches a return. -/
def writeLogFile_terminates (w : Nat → Int) (st : WriteState) : Prop :=
  ∃ fuel, writeLogFile_run w fuel 0 st = .ok ∨ writeLogFile_run w fuel 0 st = .err

/-! ## C3: the level gate -/

/-- C3: for every level L and topic T, if the topic override Lt is not
DEFAULT then the two-argument isEnabled(L, T) is true iff L ≤ Lt as
integers; if Lt is DEFAULT it is true iff L ≤ the global level; and the
one-argument isEnabled(L) is true iff L ≤ the global level. -/
theorem C3_isEnabled_gate (g l : LogLevel) (t : LogTopic) :
    (t.level ≠ LogLevel.DEFAULT →
      (Logger.isEnabledTopic g l t = true ↔ l.toNat ≤ t.level.toNat))
    ∧ (t.level = LogLevel.DEFAULT →
      (Logger.isEnabledTopic g l t = true ↔ l.toNat ≤ g.toNat))
    ∧ (Logger.isEnabled g l = true ↔ l.toNat ≤ g.toNat) := by
  refine ⟨fun h => ?_, fun h => ?_, ?_⟩
  · simp [Logger.isEnabledTopic, if_neg h]
  · simp [Logger.isEnabledTopic, if_pos h]
  · simp [Logger.isEnabled]

/-- Concrete instance of C3_isEnabled_gate: a topic with an ERR override
gates a DEBUG record against ERR, a topic with a DEFAULT override against
the global level, and the one-argument form against the global level. -/
theorem C3_isEnabled_gate_witness :
    (Logger.isEnabledTopic LogLevel.INFO LogLevel.DEBUG ⟨0, "queries", LogLevel.ERR⟩ = true ↔
      LogLevel.DEBUG.toNat ≤ (LogTopic.mk 0 "queries" LogLevel.ERR).level.toNat)
    ∧ (Logger.isEnabledTopic LogLevel.INFO LogLevel.DEBUG ⟨1, "requests", LogLevel.DEFAULT⟩ = true ↔
      LogLevel.DEBUG.toNat ≤ LogLevel.INFO.toNat)
    ∧ (Logger.isEnabled LogLevel.INFO LogLevel.DEBUG = true ↔
      LogLevel.DEBUG.toNat ≤ LogLevel.INFO.toNat) :=
  ⟨(C3_isEnabled_gate LogLevel.INFO LogLevel.DEBUG ⟨0, "queries", LogLevel.ERR⟩).1
      (by decide),
   (C3_isEnabled_gate LogLevel.INFO LogLevel.DEBUG ⟨1, "requests", LogLevel.DEFAULT⟩).2.1
      (by decide),
   (C3_isEnabled_gate LogLevel.INFO LogLevel.DEBUG ⟨1, "requests", LogLevel.DEFAULT⟩).2.2⟩

/-! ## C8: the worker's idle backoff -/

/-- C8 counterexample: the claim says the idle interval, starting at 100
microseconds, doubles on each empty iteration; the code instead adds 1000:
from the initial 100 an empty iteration yields 1100, not 200. -/
theorem C8_backoff_counterexample :
    MessageQueueWorker_slStep 100 true = 1100 ∧ (1100 : Nat) ≠ 2 * 100 := by
  constructor
  · rfl
  · decide

/-- C8 amended: the idle interval starts at 100 microseconds and grows
additively by 1000 per empty iteration up to the 1-second (1000000
microseconds) ceiling - after k consecutive empty iterations it equals
min (100 + 1000 k) 1000000 - and any iteration that processed a non-empty
batch resets it to 100. -/
theorem C8_backoff_amended :
    (∀ k, MessageQueueWorker_slIter k = min (100 + 1000 * k) 1000000)
    ∧ (∀ sl, MessageQueueWorker_slStep sl false = 100) := by
  constructor
  · intro k
    induction k with
    | zero => rfl
    | succ k ih =>
      rw [MessageQueueWorker_slIter, ih, MessageQueueWorker_slStep]
      simp only [if_true]
      split_ifs <;> omega
  · intro sl
    rfl

/-! ## C7: reopen failure leaves the sink intact -/

/-- Appending ".old" never yields the same path. -/
theorem filename_ne_backup (s : String) : ¬ s = s ++ ".old" := by
  intro h
  have h2 := congrArg String.length h
  rw [String.length_append] at h2
  have h4 : (".old" : String).length = 4 := rfl
  omega

/-- C7: for a file appender with a real path (non-empty filename, descriptor
beyond stderr), a reopen whose open of the new file fails (negative newFd)
leaves the appender completely unchanged (same descriptor, filters, flags),
closes no descriptor, restores the original file to its original name and
leaves no .old backup behind; and reopen of a console-aliased appender
(empty filename) is a complete no-op. -/
theorem C7_reopenLog_failure_restores (app : FileAppender) (fs : FileSys)
    (newFd : Int) (newId : Nat) (a : Nat) :
    (app.filename ≠ "" → 2 < app.fd → newFd < 0 → fs app.filename = some a →
      (reopenLog app fs newFd newId).1 = app
      ∧ (reopenLog app fs newFd newId).2.2 = []
      ∧ (reopenLog app fs newFd newId).2.1 app.filename = some a
      ∧ (reopenLog app fs newFd newId).2.1 (app.filename ++ ".old") = none)
    ∧ (app.filename = "" → reopenLog app fs newFd newId = (app, fs, [])) := by
  constructor
  · intro h1 h2 h3 h4
    have hb : ¬ app.filename = app.filename ++ ".old" := filename_ne_backup _
    have e1 : TRI_UnlinkFile fs (app.filename ++ ".old") app.filename = some a := by
      rw [TRI_UnlinkFile, if_neg hb, h4]
    have e2 : TRI_RenameFile (TRI_UnlinkFile fs (app.filename ++ ".old"))
        app.filename (app.filename ++ ".old")
        = fun q => if q = app.filename ++ ".old" then some a
            else if q = app.filename then none
            else TRI_UnlinkFile fs (app.filename ++ ".old") q := by
      rw [TRI_RenameFile, e1]
    have e3 : TRI_RenameFile (TRI_RenameFile (TRI_UnlinkFile fs (app.filename ++ ".old"))
        app.filename (app.filename ++ ".old")) (app.filename ++ ".old") app.filename
        = fun q => if q = app.filename then some a
            else if q = app.filename ++ ".old" then none
            else TRI_RenameFile (TRI_UnlinkFile fs (app.filename ++ ".old"))
              app.filename (app.filename ++ ".old") q := by
      rw [TRI_RenameFile, e2]
      simp
    have hfd : ¬ app.fd ≤ 2 := by omega
    rw [reopenLog, if_neg h1, if_neg hfd]
    simp only [if_pos h3]
    refine ⟨by trivial, by trivial, ?_, ?_⟩
    · rw [e3]
      simp
    · rw [e3]
      simp [Ne.symm hb]
  · intro h1
    rw [reopenLog, if_pos h1]

/-- Concrete instance of C7_reopenLog_failure_restores: a sink on "x.log"
with descriptor 7; open failure (newFd = -1) keeps the sink unchanged,
closes nothing and restores "x.log"; the stdout-aliased sink is untouched. -/
theorem C7_reopenLog_failure_restores_witness :
    ((reopenLog ⟨⟨none, .UNKNOWN, false⟩, "x.log", 7, true⟩
        (fun q => if q = "x.log" then some 11 else none) (-1) 99).1
      = ⟨⟨none, .UNKNOWN, false⟩, "x.log", 7, true⟩
    ∧ (reopenLog ⟨⟨none, .UNKNOWN, false⟩, "x.log", 7, true⟩
        (fun q => if q = "x.log" then some 11 else none) (-1) 99).2.2 = []
    ∧ (reopenLog ⟨⟨none, .UNKNOWN, false⟩, "x.log", 7, true⟩
        (fun q => if q = "x.log" then some 11 else none) (-1) 99).2.1 "x.log" = some 11
    ∧ (reopenLog ⟨⟨none, .UNKNOWN, false⟩, "x.log", 7, true⟩
        (fun q => if q = "x.log" then some 11 else none) (-1) 99).2.1 ("x.log" ++ ".old") = none)
    ∧ reopenLog ⟨⟨none, .UNKNOWN, false⟩, "", 1, true⟩
        (fun _ => none) (-1) 99
      = (⟨⟨none, .UNKNOWN, false⟩, "", 1, true⟩, fun _ => none, []) :=
  ⟨(C7_reopenLog_failure_restores ⟨⟨none, .UNKNOWN, false⟩, "x.log", 7, true⟩
      (fun q => if q = "x.log" then some 11 else none) (-1) 99 11).1
      (by decide) (by decide) (by decide) (by simp),
   (C7_reopenLog_failure_restores ⟨⟨none, .UNKNOWN, false⟩, "", 1, true⟩
      (fun _ => none) (-1) 99 0).2 rfl⟩

/-! ## C9: the file-sink write loop -/

/-- On a descriptor whose writes always return 0, the loop never reaches a
return: from remaining length 1, every number of iterations leaves it
looping with length 1. -/
theorem writeLogFile_zero_loops (fuel i : Nat) (b : Bool) :
    ∃ b2, writeLogFile_run (fun _ => 0) fuel i ⟨1, b⟩ = .looping ⟨1, b2⟩ := by
  induction fuel generalizing i b with
  | zero => exact ⟨b, by simp [writeLogFile_run]⟩
  | succ fuel ih =>
    cases b with
    | false =>
      obtain ⟨b2, hb⟩ := ih (i + 1) true
      refine ⟨b2, ?_⟩
      rw [writeLogFile_run]
      simp only [writeLogFile_step]
      norm_num
      exact hb
    | true =>
      obtain ⟨b2, hb⟩ := ih (i + 1) true
      refine ⟨b2, ?_⟩
      rw [writeLogFile_run]
      simp only [writeLogFile_step]
      norm_num
      exact hb

/-- C9 counterexample: the claim says the write loop terminates for every
sequence of write results, treating repeated zero-length writes as fatal;
but on the concrete result sequence that always returns 0, starting with 1
byte to write, the loop never terminates (the give-up flag only suppresses
the explicit retry; the fall-through makes no progress). -/
theorem C9_write_loop_counterexample :
    ¬ writeLogFile_terminates (fun _ => 0) ⟨1, false⟩ := by
  rintro ⟨fuel, h | h⟩ <;>
    obtain ⟨b2, hb⟩ := writeLogFile_zero_loops fuel 0 false <;>
    rw [hb] at h <;> exact absurd h (by simp)

/-- C9 amended: the loop terminates and reports only to the error stream
when a write result is negative; it terminates successfully whenever every
write result makes progress (at least one byte), within len iterations; a
first zero-length write is tolerated once as transient (it only sets the
give-up flag and retries); but once the flag is set a zero-length write
falls through with no progress and the identical state repeats - further
zero-length writes are retried forever, not treated as fatal. -/
theorem C9_write_loop_amended :
    (∀ (w : Nat → Int) (st : WriteState) (i fuel : Nat),
        0 < st.len → w i < 0 → writeLogFile_run w (fuel + 1) i st = .err)
    ∧ (∀ (w : Nat → Int) (fuel i : Nat) (st : WriteState),
        (∀ j, 1 ≤ w j) → st.len ≤ (fuel : Int) → writeLogFile_run w fuel i st = .ok)
    ∧ (∀ st : WriteState, 0 < st.len → st.giveUp = false →
        writeLogFile_step st 0 = .next ⟨st.len, true⟩)
    ∧ (∀ st : WriteState, 0 < st.len → st.giveUp = true →
        writeLogFile_step st 0 = .next st) := by
  refine ⟨?_, ?_, ?_, ?_⟩
  · intro w st i fuel hlen hw
    rw [writeLogFile_run, if_neg (by omega), writeLogFile_step, if_pos hw]
  · intro w fuel
    induction fuel with
    | zero =>
      intro i st hw hlen
      rw [writeLogFile_run, if_pos (by exact_mod_cast hlen)]
    | succ fuel ih =>
      intro i st hw hlen
      by_cases h0 : st.len ≤ 0
      · rw [writeLogFile_run, if_pos h0]
      · have hwi := hw i
        rw [writeLogFile_run, if_neg h0, writeLogFile_step,
          if_neg (by omega), if_neg (by omega)]
        exact ih (i + 1) ⟨st.len - w i, st.giveUp⟩ hw (by push_cast; omega)
  · intro st hlen hg
    rw [writeLogFile_step, if_neg (by omega), if_pos ⟨rfl, hg⟩]
  · intro st hlen hg
    rw [writeLogFile_step, if_neg (by omega), if_neg (by simp [hg])]
    cases st with
    | mk len giveUp => simp

/-- Concrete instances of C9_write_loop_amended: an immediate negative
result errors out; all-positive results finish; a first zero-length result
only sets the give-up flag; a zero-length result with the flag set repeats
the state unchanged. -/
theorem C9_write_loop_amended_witness :
    writeLogFile_run (fun _ => -1) (0 + 1) 0 ⟨5, false⟩ = .err
    ∧ writeLogFile_run (fun _ => 2) 5 0 ⟨5, false⟩ = .ok
    ∧ writeLogFile_step ⟨5, false⟩ 0 = .next ⟨5, true⟩
    ∧ writeLogFile_step ⟨5, true⟩ 0 = .next ⟨5, true⟩ :=
  ⟨C9_write_loop_amended.1 (fun _ => -1) ⟨5, false⟩ 0 0 (by decide) (by decide),
   C9_write_loop_amended.2.1 (fun _ => 2) 5 0 ⟨5, false⟩ (fun _ => by norm_num)
     (by decide),
   C9_write_loop_amended.2.2.1 ⟨5, false⟩ (by decide) rfl,
   C9_write_loop_amended.2.2.2 ⟨5, true⟩ (by decide) rfl⟩

/-! ## C1: behaviour while logging is globally inactive -/

/-- C1 counterexample: the claim says a log call made while the active flag
is false writes the message to stderr; but TRI_Log returns immediately when
LoggingActive is false, so at the concrete input below (an ERROR record with
text "boom" while inactive) the call produces no stderr write - and no
effect at all. -/
theorem C1_inactive_counterexample :
    TRI_Log ⟨false, false, [], initRings⟩ 0 TRI_log_level_e.ERROR
        TRI_log_severity_e.HUMAN (some ("boom", 0)) "" (fun _ => true)
      = (⟨false, false, [], initRings⟩, emptyTrace)
    ∧ emptyTrace.stderrWrites = [] :=
  ⟨rfl, rfl⟩

/-- C1 amended: while logging is globally inactive, a record that reaches
OutputMessage (the emit step) is written to the error stream - for every
level, severity and message text - and the state is untouched; but a TRI_Log
call made while the active flag is false returns before formatting, with no
output of any kind (the record is dropped, not written to stderr). -/
theorem C1_inactive_amended (g : LogGlobals) (now : Nat)
    (level : TRI_log_level_e) (severity : TRI_log_severity_e)
    (message : String) (offset : Nat) (fmt : Option (String × Nat))
    (timeStr : String) (alloc : Nat → Bool) (h : g.loggingActive = false) :
    OutputMessage g now level severity message offset
      = (g, ⟨[(level, message)], [], [], none, false⟩)
    ∧ TRI_Log g now level severity fmt timeStr alloc = (g, emptyTrace) := by
  constructor
  · rw [OutputMessage, if_pos h]
  · rw [TRI_Log, if_pos h]

/-- Concrete instance of C1_inactive_amended: with the active flag down,
OutputMessage writes the WARNING record "w" to stderr, TRI_Log does
nothing. -/
theorem C1_inactive_amended_witness :
    OutputMessage ⟨false, true, [], initRings⟩ 5 TRI_log_level_e.WARNING
        TRI_log_severity_e.HUMAN "w" 0
      = (⟨false, true, [], initRings⟩,
         ⟨[(TRI_log_level_e.WARNING, "w")], [], [], none, false⟩)
    ∧ TRI_Log ⟨false, true, [], initRings⟩ 5 TRI_log_level_e.WARNING
        TRI_log_severity_e.HUMAN (some ("w", 0)) "" (fun _ => true)
      = (⟨false, true, [], initRings⟩, emptyTrace) :=
  C1_inactive_amended ⟨false, true, [], initRings⟩ 5 TRI_log_level_e.WARNING
    TRI_log_severity_e.HUMAN "w" 0 (some ("w", 0)) "" (fun _ => true) rfl

/-! ## C2: the dispatch loop and the consume chain -/

/-- C2: the dispatch loop invokes, in registration order, exactly the
appenders that pass both filters, up to and including the first passing
appender whose consume flag is set; in particular, with two appenders that
both match a record, the second is invoked iff the first's consume flag is
false (and the first consuming cuts the chain after itself). -/
theorem C2_dispatch_consume_chain (severity : TRI_log_severity_e) (message : String) :
    (∀ appenders : List Appender,
      appenderLoop appenders severity message
        = upToConsume (appenders.filter fun x => appenderMatches x severity message))
    ∧ (∀ a b : Appender,
        appenderMatches a severity message = true →
        appenderMatches b severity message = true →
        (appenderLoop [a, b] severity message = [a, b] ↔ a.consume = false)
        ∧ (a.consume = true → appenderLoop [a, b] severity message = [a])) := by
  have main : ∀ appenders : List Appender,
      appenderLoop appenders severity message
        = upToConsume (appenders.filter fun x => appenderMatches x severity message) := by
    intro appenders
    induction appenders with
    | nil => rfl
    | cons a rest ih =>
      rw [appenderLoop]
      by_cases h1 : a.severityFilter ≠ TRI_log_severity_e.UNKNOWN ∧ a.severityFilter ≠ severity
      · rw [if_pos h1, ih]
        have hm : appenderMatches a severity message = false := by
          rw [appenderMatches]
          obtain ⟨x, y⟩ := h1
          simp [x, y]
        simp [List.filter_cons, hm]
      · rw [if_neg h1]
        have hsev : (decide (a.severityFilter = TRI_log_severity_e.UNKNOWN) ||
            decide (a.severityFilter = severity)) = true := by
          rcases Decidable.not_and_iff_or_not.mp h1 with h | h <;> simp at h <;> simp [h]
        by_cases h2 : (match a.contentFilter with
            | some f => !TRI_IsContainedString message f
            | none => false) = true
        · rw [if_pos h2, ih]
          have hm : appenderMatches a severity message = false := by
            rw [appenderMatches]
            cases hc : a.contentFilter with
            | none => rw [hc] at h2; simp at h2
            | some f =>
              rw [hc] at h2
              simp only [Bool.not_eq_true'] at h2
              simp [h2]
          simp [List.filter_cons, hm]
        · rw [if_neg h2]
          have hm : appenderMatches a severity message = true := by
            rw [appenderMatches, hsev]
            cases hc : a.contentFilter with
            | none => simp
            | some f =>
              rw [hc] at h2
              simp only [Bool.not_eq_true', Bool.not_eq_false] at h2
              simp [h2]
          rw [List.filter_cons, if_pos hm, upToConsume]
          cases hcons : a.consume <;> simp [ih]
  refine ⟨main, fun a b hma hmb => ?_⟩
  have h2 : appenderLoop [a, b] severity message
      = if a.consume then [a] else [a, b] := by
    rw [main [a, b]]
    simp only [List.filter, hma, hmb]
    rw [upToConsume]
    cases a.consume <;> simp [upToConsume]
  constructor
  · rw [h2]
    cases hcons : a.consume <;> simp
  · intro hcons
    rw [h2, if_pos hcons]

/-- Concrete instance of C2_dispatch_consume_chain: a filterless
non-consuming appender followed by a consuming appender with a matching
content filter; the loop equals the filtered consume-chain, the chain is
[first, second] iff the first does not consume, and a consuming first
appender cuts the chain. -/
theorem C2_dispatch_consume_chain_witness :
    appenderLoop [⟨none, .UNKNOWN, false⟩, ⟨some "world", .HUMAN, true⟩]
        TRI_log_severity_e.HUMAN "hello world"
      = upToConsume (List.filter
          (fun x => appenderMatches x TRI_log_severity_e.HUMAN "hello world")
          [⟨none, .UNKNOWN, false⟩, ⟨some "world", .HUMAN, true⟩])
    ∧ (appenderLoop [⟨none, .UNKNOWN, false⟩, ⟨some "world", .HUMAN, true⟩]
          TRI_log_severity_e.HUMAN "hello world"
        = [⟨none, .UNKNOWN, false⟩, ⟨some "world", .HUMAN, true⟩]
       ↔ Appender.consume ⟨none, .UNKNOWN, false⟩ = false)
    ∧ appenderLoop [⟨none, .UNKNOWN, true⟩, ⟨some "world", .HUMAN, true⟩]
        TRI_log_severity_e.HUMAN "hello world"
      = [⟨none, .UNKNOWN, true⟩] :=
  ⟨(C2_dispatch_consume_chain TRI_log_severity_e.HUMAN "hello world").1
      [⟨none, .UNKNOWN, false⟩, ⟨some "world", .HUMAN, true⟩],
   ((C2_dispatch_consume_chain TRI_log_severity_e.HUMAN "hello world").2
      ⟨none, .UNKNOWN, false⟩ ⟨some "world", .HUMAN, true⟩
      (by decide) (by decide)).1,
   ((C2_dispatch_consume_chain TRI_log_severity_e.HUMAN "hello world").2
      ⟨none, .UNKNOWN, true⟩ ⟨some "world", .HUMAN, true⟩
      (by decide) (by decide)).2 rfl⟩

/-! ## C10: out-of-range level indices in TRI_BufferLogging -/

/-- C10: a buffered-history query whose level index is at or beyond the
number of rings (6) is clamped to the last ring, the TRACE ring, and
returns exactly the result of the corresponding TRACE-level query - no
out-of-range ring is ever touched. -/
theorem C10_bufferLogging_clamps (st : RingsState) (start : Nat)
    (useUpto : Bool) (lv : Nat) (h : OUTPUT_LOG_LEVELS ≤ lv) :
    TRI_BufferLogging st lv start useUpto
      = TRI_BufferLogging st (levelIndex TRI_log_level_e.TRACE) start useUpto := by
  have hp : (if OUTPUT_LOG_LEVELS ≤ lv then OUTPUT_LOG_LEVELS - 1 else lv)
      = (if OUTPUT_LOG_LEVELS ≤ levelIndex TRI_log_level_e.TRACE then
          OUTPUT_LOG_LEVELS - 1
         else levelIndex TRI_log_level_e.TRACE) := by
    rw [if_pos h,
      if_neg (by decide : ¬ OUTPUT_LOG_LEVELS ≤ levelIndex TRI_log_level_e.TRACE)]
    decide
  simp only [TRI_BufferLogging]
  rw [hp]

/-- Concrete instance of C10_bufferLogging_clamps: a query at level index 7
equals the TRACE query on the initial state. -/
theorem C10_bufferLogging_clamps_witness :
    TRI_BufferLogging initRings 7 0 true
      = TRI_BufferLogging initRings (levelIndex TRI_log_level_e.TRACE) 0 true :=
  C10_bufferLogging_clamps initRings 0 true 7 (by decide)

/-! ## C4: ring retention, recency and lid monotonicity -/

/-- Unfolded form of one StoreOutput call at a level whose ring index is in
range. -/
theorem StoreOutput_unfold (st : RingsState) (level : TRI_log_level_e)
    (ts : Nat) (text : String)
    (hpos : ¬ OUTPUT_LOG_LEVELS ≤ levelIndex level) :
    StoreOutput st level ts text
      = ⟨st.bufferLID + 1,
         fun i => if i = levelIndex level then
             (st.bufferCurrent (levelIndex level) + 1) % OUTPUT_BUFFER_SIZE
           else st.bufferCurrent i,
         fun i j =>
           if i = levelIndex level ∧
               j = (st.bufferCurrent (levelIndex level) + 1) % OUTPUT_BUFFER_SIZE then
             ⟨st.bufferLID, level, ts,
              some (if OUTPUT_MAX_LENGTH < text.length then
                      text.take (OUTPUT_MAX_LENGTH - 4) ++ " ..."
                    else text)⟩
           else st.bufferOutput i j⟩ := by
  rw [StoreOutput]
  simp only [if_neg hpos]

/-- Invariant of storeMany: after n calls the next lid is n + 1, the ring
position is n mod capacity, and each of the (up to capacity) most recent
calls sits in its slot. -/
theorem storeMany_inv (level : TRI_log_level_e) (f : Nat → Nat × String) (n : Nat) :
    (storeMany level f n).bufferLID = n + 1
    ∧ (storeMany level f n).bufferCurrent (levelIndex level) = n % OUTPUT_BUFFER_SIZE
    ∧ ∀ i, 1 ≤ i → i ≤ n → n < i + OUTPUT_BUFFER_SIZE →
        (storeMany level f n).bufferOutput (levelIndex level) (i % OUTPUT_BUFFER_SIZE)
          = ringEntry level f i := by
  induction n with
  | zero =>
    exact ⟨rfl, rfl, fun i h1 h2 _ => absurd (h1.trans h2) (by decide)⟩
  | succ n ih =>
    obtain ⟨ih1, ih2, ih3⟩ := ih
    have hpos : ¬ OUTPUT_LOG_LEVELS ≤ levelIndex level := by cases level <;> decide
    rw [storeMany, StoreOutput_unfold _ _ _ _ hpos, ih1, ih2]
    refine ⟨rfl, ?_, ?_⟩
    · show ((if levelIndex level = levelIndex level then
          (n % OUTPUT_BUFFER_SIZE + 1) % OUTPUT_BUFFER_SIZE
        else (storeMany level f n).bufferCurrent (levelIndex level)))
        = (n + 1) % OUTPUT_BUFFER_SIZE
      rw [if_pos rfl]
      simp only [OUTPUT_BUFFER_SIZE]
      omega
    · intro i h1 h2 h3
      show (if levelIndex level = levelIndex level ∧
            i % OUTPUT_BUFFER_SIZE = (n % OUTPUT_BUFFER_SIZE + 1) % OUTPUT_BUFFER_SIZE then
          (⟨n + 1, level, (f (n + 1)).1,
            some (if OUTPUT_MAX_LENGTH < (f (n + 1)).2.length then
                    (f (n + 1)).2.take (OUTPUT_MAX_LENGTH - 4) ++ " ..."
                  else (f (n + 1)).2)⟩ : TRI_log_buffer_t)
        else (storeMany level f n).bufferOutput (levelIndex level) (i % OUTPUT_BUFFER_SIZE))
        = ringEntry level f i
      by_cases hi : i = n + 1
      · subst hi
        rw [if_pos ⟨rfl, by simp only [OUTPUT_BUFFER_SIZE]; omega⟩]
        rfl
      · rw [if_neg ?_]
        · exact ih3 i h1 (by omega) (by omega)
        · rintro ⟨-, hc⟩
          simp only [OUTPUT_BUFFER_SIZE] at hc h2 h3
          omega

/-- C4: after N > 1024 insertions into one level's ring, every one of the
1024 slots holds exactly one of the 1024 most recent insertions (so exactly
capacity entries are retained, the capacity most recent ones); the i-th
insertion carries lid i, so stored lids strictly increase with insertion
order; and each insertion beyond the capacity overwrites the slot holding
the oldest retained entry (the one from exactly capacity insertions
earlier), receiving a lid (the then-current BufferLID) strictly larger than
every previously assigned lid. -/
theorem C4_ring_retention (level : TRI_log_level_e) (f : Nat → Nat × String)
    (N : Nat) (h : OUTPUT_BUFFER_SIZE < N) :
    (∀ j, j < OUTPUT_BUFFER_SIZE → ∃ i, N - OUTPUT_BUFFER_SIZE < i ∧ i ≤ N ∧
        i % OUTPUT_BUFFER_SIZE = j ∧
        (storeMany level f N).bufferOutput (levelIndex level) j = ringEntry level f i)
    ∧ (∀ i, N - OUTPUT_BUFFER_SIZE < i → i ≤ N →
        (storeMany level f N).bufferOutput (levelIndex level) (i % OUTPUT_BUFFER_SIZE)
          = ringEntry level f i)
    ∧ (∀ i, (ringEntry level f i).lid = i)
    ∧ (∀ i1 i2, N - OUTPUT_BUFFER_SIZE < i1 → i1 < i2 → i2 ≤ N →
        ((storeMany level f N).bufferOutput (levelIndex level)
            (i1 % OUTPUT_BUFFER_SIZE)).lid
          < ((storeMany level f N).bufferOutput (levelIndex level)
              (i2 % OUTPUT_BUFFER_SIZE)).lid)
    ∧ (∀ i, OUTPUT_BUFFER_SIZE < i → i ≤ N →
        (storeMany level f (i - 1)).bufferOutput (levelIndex level)
            (i % OUTPUT_BUFFER_SIZE)
          = ringEntry level f (i - OUTPUT_BUFFER_SIZE)
        ∧ (storeMany level f (i - 1)).bufferLID = i) := by
  simp only [OUTPUT_BUFFER_SIZE] at h
  have recent : ∀ i, N - 1024 < i → i ≤ N →
      (storeMany level f N).bufferOutput (levelIndex level) (i % OUTPUT_BUFFER_SIZE)
        = ringEntry level f i := by
    intro i hi1 hi2
    exact (storeMany_inv level f N).2.2 i (by omega) hi2
      (by simp only [OUTPUT_BUFFER_SIZE]; omega)
  refine ⟨?_, ?_, ?_, ?_, ?_⟩
  · intro j hj
    simp only [OUTPUT_BUFFER_SIZE] at hj ⊢
    have hdm := Nat.div_add_mod (N - j) 1024
    have hmlt : (N - j) % 1024 < 1024 := Nat.mod_lt _ (by omega)
    refine ⟨N - (N - j) % 1024, by omega, by omega, ?_, ?_⟩
    · have heq : N - (N - j) % 1024 = j + 1024 * ((N - j) / 1024) := by omega
      rw [heq, Nat.add_mul_mod_self_left, Nat.mod_eq_of_lt hj]
    · have hr := recent (N - (N - j) % 1024) (by omega) (by omega)
      simp only [OUTPUT_BUFFER_SIZE] at hr
      have heq : (N - (N - j) % 1024) % 1024 = j := by
        have heq2 : N - (N - j) % 1024 = j + 1024 * ((N - j) / 1024) := by omega
        rw [heq2, Nat.add_mul_mod_self_left, Nat.mod_eq_of_lt hj]
      rw [heq] at hr
      exact hr
  · intro i hi1 hi2
    simp only [OUTPUT_BUFFER_SIZE] at hi1
    exact recent i hi1 hi2
  · intro i
    rfl
  · intro i1 i2 h1 h2 h3
    simp only [OUTPUT_BUFFER_SIZE] at h1
    rw [recent i1 h1 (by omega), recent i2 (by omega) h3]
    show i1 < i2
    exact h2
  · intro i hi1 hi2
    simp only [OUTPUT_BUFFER_SIZE] at hi1
    have inv := storeMany_inv level f (i - 1)
    constructor
    · have hs := inv.2.2 (i - 1024) (by omega) (by omega)
        (by simp only [OUTPUT_BUFFER_SIZE]; omega)
      have heq : (i - 1024) % OUTPUT_BUFFER_SIZE = i % OUTPUT_BUFFER_SIZE := by
        simp only [OUTPUT_BUFFER_SIZE]
        omega
      rw [heq] at hs
      simp only [OUTPUT_BUFFER_SIZE]
      exact hs
    · rw [inv.1]
      omega

/-- Concrete instance of C4_ring_retention: after 1025 insertions at INFO
level, slot 1025 mod 1024 = 1 holds the entry of insertion 1025 (lid 1025),
the entry of insertion 2 is retained, insertion 1's entry has been
overwritten by insertion 1025 (which displaced the oldest, entry 1), and
the lid assigned at step 1025 was the then-current BufferLID 1025. -/
theorem C4_ring_retention_witness :
    OUTPUT_BUFFER_SIZE < 1025
    ∧ (storeMany TRI_log_level_e.INFO (fun i => (i, "m")) 1025).bufferOutput
        (levelIndex TRI_log_level_e.INFO) (1025 % OUTPUT_BUFFER_SIZE)
      = ringEntry TRI_log_level_e.INFO (fun i => (i, "m")) 1025
    ∧ (storeMany TRI_log_level_e.INFO (fun i => (i, "m")) 1024).bufferOutput
        (levelIndex TRI_log_level_e.INFO) (1025 % OUTPUT_BUFFER_SIZE)
      = ringEntry TRI_log_level_e.INFO (fun i => (i, "m")) (1025 - OUTPUT_BUFFER_SIZE)
    ∧ (storeMany TRI_log_level_e.INFO (fun i => (i, "m")) 1024).bufferLID = 1025 :=
  ⟨by decide,
   (C4_ring_retention TRI_log_level_e.INFO (fun i => (i, "m")) 1025 (by decide)).2.1
     1025 (by decide) (by decide),
   ((C4_ring_retention TRI_log_level_e.INFO (fun i => (i, "m")) 1025 (by decide)).2.2.2.2
     1025 (by decide) (by decide)).1,
   ((C4_ring_retention TRI_log_level_e.INFO (fun i => (i, "m")) 1025 (by decide)).2.2.2.2
     1025 (by decide) (by decide)).2⟩

/-! ## C6: format-buffer growth and the 100 KB ceiling -/

/-- Helper: at or beyond the 100 KB ceiling the growth loop exits without
any effect - no output, no diagnostic. -/
theorem LogThread_grow_ceiling (g : LogGlobals) (now : Nat)
    (level : TRI_log_level_e) (severity : TRI_log_severity_e) (s : String)
    (offset : Nat) (timeStr : String) (alloc : Nat → Bool) (n : Nat)
    (h : 100 * 1024 ≤ n) :
    LogThread_grow g now level severity s offset timeStr alloc n
      = (g, emptyTrace) := by
  rw [LogThread_grow]
  rw [dif_neg (by omega)]

/-- Helper: below the ceiling with a successful allocation, the growth loop
re-renders once and emits the full message. -/
theorem LogThread_grow_fits (g : LogGlobals) (now : Nat)
    (level : TRI_log_level_e) (severity : TRI_log_severity_e) (s : String)
    (offset : Nat) (timeStr : String) (alloc : Nat → Bool)
    (h1 : s.length < 100 * 1024)
    (h2 : alloc (s.length + timeStr.length + 2) = true)
    (h3 : s.length + timeStr.length ≠ 1) :
    LogThread_grow g now level severity s offset timeStr alloc s.length
      = OutputMessage g now level severity (timeStr ++ s)
          (offset + timeStr.length) := by
  rw [LogThread_grow]
  rw [dif_pos h1, if_pos h2, dif_neg (lt_irrefl s.length), if_neg h3]

/-- Helper: below the ceiling with a failed allocation, the growth loop
produces the recursive "log message is too large" diagnostic and nothing
else. -/
theorem LogThread_grow_allocFail (g : LogGlobals) (now : Nat)
    (level : TRI_log_level_e) (severity : TRI_log_severity_e) (s : String)
    (offset : Nat) (timeStr : String) (alloc : Nat → Bool) (n : Nat)
    (h1 : n < 100 * 1024)
    (h2 : alloc (n + timeStr.length + 2) = false) :
    LogThread_grow g now level severity s offset timeStr alloc n
      = (g, ⟨[], [], [], some (n + timeStr.length), false⟩) := by
  rw [LogThread_grow]
  rw [dif_pos h1, if_neg (by simp [h2])]

/-- A text of n identical bytes, used as a concrete over-long rendered
message. -/
def bigText (n : Nat) : String := String.mk (List.replicate n 'a')

/-- The length of bigText n is n. -/
theorem bigText_length (n : Nat) : (bigText n).length = n := by
  rw [bigText, String.length_mk, List.length_replicate]

/-- C6 counterexample: the claim says an input whose required size exceeds
the 100 KB ceiling yields the fallback diagnostic "log message is too
large"; but at the concrete rendered text of exactly 100 KB (with an
appender registered, allocation succeeding), LogThread returns with an
empty trace: no fallback diagnostic (tooLarge = none), no stderr write, no
enqueue, no dispatch - the record is silently dropped.  (The fallback fires
only when a heap allocation fails.) -/
theorem C6_ceiling_counterexample :
    LogThread ⟨true, false, [⟨none, .UNKNOWN, false⟩], initRings⟩ 0
        TRI_log_level_e.INFO TRI_log_severity_e.TECHNICAL
        (some (bigText (100 * 1024), 0)) "" (fun _ => true)
      = (⟨true, false, [⟨none, .UNKNOWN, false⟩], initRings⟩, emptyTrace)
    ∧ emptyTrace.tooLarge = none
    ∧ emptyTrace.stderrWrites = []
    ∧ emptyTrace.enqueued = []
    ∧ emptyTrace.dispatched = [] := by
  have hlen := bigText_length (100 * 1024)
  refine ⟨?_, rfl, rfl, rfl, rfl⟩
  simp only [LogThread]
  rw [if_neg (by rw [hlen]; decide)]
  exact LogThread_grow_ceiling _ _ _ _ _ _ _ _ _ (by rw [hlen])

/-- C6 amended: a message whose rendered size does not fit the remainder of
the 2048-byte stack buffer is emitted via a grown heap buffer as long as its
size is under the 100 KB ceiling and the allocation succeeds; when the
allocation fails, the fallback diagnostic "log message is too large" is
logged in place of the record; but a message whose size reaches the ceiling
is silently dropped - no output and no fallback diagnostic. -/
theorem C6_format_growth (g : LogGlobals) (now : Nat)
    (level : TRI_log_level_e) (severity : TRI_log_severity_e) (s : String)
    (offset : Nat) (timeStr : String) (alloc : Nat → Bool)
    (h : 2048 - timeStr.length ≤ s.length) :
    (s.length < 100 * 1024 → alloc (s.length + timeStr.length + 2) = true →
      LogThread g now level severity (some (s, offset)) timeStr alloc
        = OutputMessage g now level severity (timeStr ++ s)
            (offset + timeStr.length))
    ∧ (s.length < 100 * 1024 → alloc (s.length + timeStr.length + 2) = false →
      LogThread g now level severity (some (s, offset)) timeStr alloc
        = (g, ⟨[], [], [], some (s.length + timeStr.length), false⟩))
    ∧ (100 * 1024 ≤ s.length →
      LogThread g now level severity (some (s, offset)) timeStr alloc
        = (g, emptyTrace)) := by
  have hstack : ¬ s.length < 2048 - timeStr.length := by omega
  refine ⟨fun h1 h2 => ?_, fun h1 h2 => ?_, fun h1 => ?_⟩
  · simp only [LogThread]
    rw [if_neg hstack]
    exact LogThread_grow_fits g now level severity s offset timeStr alloc h1 h2
      (by omega)
  · simp only [LogThread]
    rw [if_neg hstack]
    exact LogThread_grow_allocFail g now level severity s offset timeStr alloc
      s.length h1 h2
  · simp only [LogThread]
    rw [if_neg hstack]
    exact LogThread_grow_ceiling g now level severity s offset timeStr alloc
      s.length h1

/-- Concrete instance of C6_format_growth: a 2048-byte rendered text does
not fit the stack buffer and is emitted through the heap path unchanged;
with a failing allocator the same text produces only the "too large"
diagnostic trace entry. -/
theorem C6_format_growth_witness :
    LogThread ⟨true, false, [⟨none, .UNKNOWN, false⟩], initRings⟩ 0
        TRI_log_level_e.INFO TRI_log_severity_e.HUMAN
        (some (bigText 2048, 0)) "" (fun _ => true)
      = OutputMessage ⟨true, false, [⟨none, .UNKNOWN, false⟩], initRings⟩ 0
          TRI_log_level_e.INFO TRI_log_severity_e.HUMAN
          ("" ++ bigText 2048) (0 + String.length "")
    ∧ LogThread ⟨true, false, [⟨none, .UNKNOWN, false⟩], initRings⟩ 0
        TRI_log_level_e.INFO TRI_log_severity_e.HUMAN
        (some (bigText 2048, 0)) "" (fun _ => false)
      = (⟨true, false, [⟨none, .UNKNOWN, false⟩], initRings⟩,
         ⟨[], [], [], some ((bigText 2048).length + String.length ""), false⟩) :=
  ⟨(C6_format_growth ⟨true, false, [⟨none, .UNKNOWN, false⟩], initRings⟩ 0
      TRI_log_level_e.INFO TRI_log_severity_e.HUMAN
      (bigText 2048) 0 "" (fun _ => true)
      (by rw [bigText_length]; decide)).1
      (by rw [bigText_length]; decide) rfl,
   (C6_format_growth ⟨true, false, [⟨none, .UNKNOWN, false⟩], initRings⟩ 0
      TRI_log_level_e.INFO TRI_log_severity_e.HUMAN
      (bigText 2048) 0 "" (fun _ => false)
      (by rw [bigText_length]; decide)).2.1
      (by rw [bigText_length]; decide) rfl⟩

/-! ## C5: the buffered-history query -/

/-- Helper: a filterMap that keeps an element unchanged when a predicate
holds is a filter. -/
theorem filterMap_keep_eq_filter {β : Type} (p : β → Bool) (l : List β) :
    (l.filterMap fun b => if p b then some b else none) = l.filter p := by
  induction l with
  | nil => rfl
  | cons a t ih =>
    by_cases h : p a <;> simp [List.filterMap_cons, List.filter_cons, h, ih]

/-- Helper: walking the indices 0..n-1 through the rotation
j mod n from any offset c visits each index exactly once. -/
theorem map_rot_perm_range (c n : Nat) :
    List.Perm ((List.range n).map fun j => (c + j) % n) (List.range n) := by
  have heq : ((List.range n).map fun j => (c + j) % n) = (List.range n).rotate c := by
    apply List.ext_getElem
    · simp [List.length_rotate]
    · intro i h1 h2
      simp only [List.getElem_map, List.getElem_range, List.getElem_rotate,
        List.length_range]
      rw [Nat.add_comm]
  rw [heq]
  exact List.rotate_perm _ _

/-- Helper: the walk of one ring performed by TRI_BufferLogging - slots
visited in rotated order starting after the current position, filtered by
bufferKeep - is a permutation of the ring's kept entries in plain slot
order. -/
theorem ring_walk_perm (st : RingsState) (start : Nat) (i : Nat) :
    List.Perm
      ((List.range OUTPUT_BUFFER_SIZE).filterMap fun j =>
        if bufferKeep start
            (st.bufferOutput i ((st.bufferCurrent i + j) % OUTPUT_BUFFER_SIZE)) then
          some (st.bufferOutput i ((st.bufferCurrent i + j) % OUTPUT_BUFFER_SIZE))
        else none)
      (((List.range OUTPUT_BUFFER_SIZE).map (st.bufferOutput i)).filter
          (bufferKeep start)) := by
  have h1 : ((List.range OUTPUT_BUFFER_SIZE).filterMap fun j =>
        if bufferKeep start
            (st.bufferOutput i ((st.bufferCurrent i + j) % OUTPUT_BUFFER_SIZE)) then
          some (st.bufferOutput i ((st.bufferCurrent i + j) % OUTPUT_BUFFER_SIZE))
        else none)
      = (((List.range OUTPUT_BUFFER_SIZE).map
            fun j => (st.bufferCurrent i + j) % OUTPUT_BUFFER_SIZE).filterMap
          fun k => if bufferKeep start (st.bufferOutput i k) then
              some (st.bufferOutput i k)
            else none) := by
    rw [List.filterMap_map]
    rfl
  rw [h1]
  refine ((map_rot_perm_range (st.bufferCurrent i) OUTPUT_BUFFER_SIZE).filterMap
      _).trans ?_
  have h3 : ((List.range OUTPUT_BUFFER_SIZE).filterMap
        fun k => if bufferKeep start (st.bufferOutput i k) then
            some (st.bufferOutput i k)
          else none)
      = ((List.range OUTPUT_BUFFER_SIZE).map (st.bufferOutput i)).filter
          (bufferKeep start) := by
    rw [← filterMap_keep_eq_filter (bufferKeep start), List.filterMap_map]
    rfl
  rw [h3]

/-- Helper: mergeSort depends on the comparison function only through its
values on pairs of list elements (instance of map_mergeSort at the identity
function). -/
theorem mergeSort_comparator_congr
    (le₁ le₂ : TRI_log_buffer_t → TRI_log_buffer_t → Bool)
    (l : List TRI_log_buffer_t) (h : ∀ a ∈ l, ∀ b ∈ l, le₁ a b = le₂ a b) :
    l.mergeSort le₁ = l.mergeSort le₂ := by
  have h2 := @List.map_mergeSort TRI_log_buffer_t TRI_log_buffer_t le₁ le₂ id l
    (fun a ha b hb => h a ha b hb)
  rw [List.map_id, List.map_id] at h2
  exact h2

/-- Helper: on entries whose lids are both below 2^31, the source comparator
decides exactly the lid order. -/
theorem LidCompare_ble_agree (a b : TRI_log_buffer_t)
    (ha : a.lid < 2 ^ 31) (hb : b.lid < 2 ^ 31) :
    decide (LidCompare a b ≤ 0) = Nat.ble a.lid b.lid := by
  have h := LidCompare_nonpos a b (by omega) (by omega)
  by_cases hle : a.lid ≤ b.lid
  · have h1 : decide (LidCompare a b ≤ 0) = true := decide_eq_true (h.mpr hle)
    have h2 : Nat.ble a.lid b.lid = true := by
      rw [Nat.ble_eq]
      exact hle
    rw [h1, h2]
  · have h1 : decide (LidCompare a b ≤ 0) = false :=
      decide_eq_false fun hc => hle (h.mp hc)
    have h2 : Nat.ble a.lid b.lid = false :=
      Bool.eq_false_iff.mpr fun hc => hle (by rw [Nat.ble_eq] at hc; exact hc)
    rw [h1, h2]

/-- Helper: a list of entries whose lids all lie below 2^31, sorted with the
source comparator, comes out sorted ascending by lid. -/
theorem sorted_by_lid_of_bounded (l : List TRI_log_buffer_t)
    (hb : ∀ x ∈ l, x.lid < 2 ^ 31) :
    List.Pairwise (fun a b : TRI_log_buffer_t => a.lid ≤ b.lid)
      (l.mergeSort fun a b => decide (LidCompare a b ≤ 0)) := by
  rw [mergeSort_comparator_congr _ (fun a b => Nat.ble a.lid b.lid) l
    (fun a ha b hb2 => LidCompare_ble_agree a b (hb a ha) (hb b hb2))]
  refine List.Pairwise.imp (fun hx => Nat.le_of_ble_eq_true hx) ?_
  exact List.sorted_mergeSort
    (fun a b c h1 h2 => by
      simp only [Nat.ble_eq] at h1 h2 ⊢
      omega)
    (fun a b => by
      simp only [Bool.or_eq_true, Nat.ble_eq]
      omega)
    l

set_option maxRecDepth 100000 in
/-- C5 counterexample: the claim says the query result is sorted ascending
by id for every state; but on lidGapState, whose FATAL ring retains lids 1
and 2^31 + 2, the FATAL-level query returns the lids in the order
[2^31 + 2, 1] - not sorted.  LidCompare truncates the int64 lid difference
to a 32-bit int, so comparing lid 2^31 + 2 against lid 1 yields 1 - 2^31
(negative) and the larger lid is placed first; any comparison sort honoring
the comparator, qsort included, must order this two-element list this
way. -/
theorem C5_sort_counterexample :
    (TRI_BufferLogging lidGapState 0 0 false).map (fun b => b.lid)
      = [2 ^ 31 + 2, 1]
    ∧ ¬ List.Sorted (fun a b : TRI_log_buffer_t => a.lid ≤ b.lid)
        (TRI_BufferLogging lidGapState 0 0 false) := by
  have hq : TRI_BufferLogging lidGapState 0 0 false
      = List.mergeSort
          [⟨2 ^ 31 + 2, .FATAL, 0, some "b"⟩, ⟨1, .FATAL, 0, some "a"⟩]
          (fun a b => decide (LidCompare a b ≤ 0)) := rfl
  have hp : List.Pairwise
      (fun a b => (fun a b => decide (LidCompare a b ≤ 0)) a b = true)
      [(⟨2 ^ 31 + 2, .FATAL, 0, some "b"⟩ : TRI_log_buffer_t),
       ⟨1, .FATAL, 0, some "a"⟩] := by
    refine List.Pairwise.cons ?_ (List.pairwise_singleton _ _)
    intro b hb
    rw [List.mem_singleton] at hb
    subst hb
    decide
  rw [hq, List.mergeSort_of_sorted hp]
  refine ⟨rfl, fun h => ?_⟩
  rw [List.sorted_cons] at h
  exact absurd (h.1 _ (List.mem_cons_self _ _)) (by decide)

/-- C5 amended: for every ring state, level, start id and cumulative flag,
the buffered-history query returns a permutation of (hence contains
exactly) the entries of the merged rings - every ring from the most severe
level (index 0) up to the given level when cumulative, only the given
level's ring otherwise - whose lid is at least startId and whose text is
present and non-empty; and the result is sorted ascending by lid provided
every stored lid lies below 2^31, so that all lid gaps stay below 2^31,
where LidCompare's int truncation is exact (C5_sort_counterexample shows
sortedness fails for larger gaps). -/
theorem C5_bufferLogging_query (st : RingsState) (level : TRI_log_level_e)
    (start : Nat) (useUpto : Bool) :
    ((∀ i j, (st.bufferOutput i j).lid < 2 ^ 31) →
      List.Sorted (fun a b : TRI_log_buffer_t => a.lid ≤ b.lid)
        (TRI_BufferLogging st (levelIndex level) start useUpto))
    ∧ (TRI_BufferLogging st (levelIndex level) start useUpto).Perm
        ((if useUpto then List.range (levelIndex level + 1)
          else [levelIndex level]).flatMap
          fun i => ((List.range OUTPUT_BUFFER_SIZE).map (st.bufferOutput i)).filter
            (bufferKeep start)) := by
  have hpos : ¬ OUTPUT_LOG_LEVELS ≤ levelIndex level := by cases level <;> decide
  constructor
  · intro hbst
    show List.Pairwise _ _
    simp only [TRI_BufferLogging]
    apply sorted_by_lid_of_bounded
    intro x hx
    rw [List.mem_flatMap] at hx
    obtain ⟨i, -, hx⟩ := hx
    rw [List.mem_filterMap] at hx
    obtain ⟨j, -, hj⟩ := hx
    split at hj
    · injection hj with hj2
      subst hj2
      exact hbst i _
    · exact absurd hj (by simp)
  · simp only [TRI_BufferLogging]
    refine (List.mergeSort_perm _ _).trans ?_
    rw [if_neg hpos]
    cases useUpto with
    | false =>
      have e0 : (if false = true then (0 : Nat) else levelIndex level)
          = levelIndex level := rfl
      have e2 : (if false = true then List.range (levelIndex level + 1)
          else [levelIndex level]) = [levelIndex level] := rfl
      rw [e0, e2]
      have h1 : levelIndex level + 1 - levelIndex level = 1 := by omega
      rw [h1, List.range'_one]
      simp only [List.flatMap_cons, List.flatMap_nil, List.append_nil]
      exact ring_walk_perm st start (levelIndex level)
    | true =>
      have e0 : (if true = true then (0 : Nat) else levelIndex level) = 0 := rfl
      have e2 : (if true = true then List.range (levelIndex level + 1)
          else [levelIndex level]) = List.range (levelIndex level + 1) := rfl
      rw [e0, e2, Nat.sub_zero]
      rw [show List.range' 0 (levelIndex level + 1)
          = List.range (levelIndex level + 1) from
        (List.range_eq_range' (levelIndex level + 1)).symm]
      exact List.Perm.flatMap_left _ fun a _ => ring_walk_perm st start a

/-- Concrete instance of C5_bufferLogging_query: the cumulative INFO query
on the zero-initialized rings (all lids 0, below 2^31) is sorted by lid and
a permutation of the kept entries of rings 0..3. -/
theorem C5_bufferLogging_query_witness :
    List.Sorted (fun a b : TRI_log_buffer_t => a.lid ≤ b.lid)
      (TRI_BufferLogging initRings (levelIndex TRI_log_level_e.INFO) 0 true)
    ∧ (TRI_BufferLogging initRings (levelIndex TRI_log_level_e.INFO) 0 true).Perm
        ((if true then List.range (levelIndex TRI_log_level_e.INFO + 1)
          else [levelIndex TRI_log_level_e.INFO]).flatMap
          fun i => ((List.range OUTPUT_BUFFER_SIZE).map (initRings.bufferOutput i)).filter
            (bufferKeep 0)) :=
  ⟨(C5_bufferLogging_query initRings TRI_log_level_e.INFO 0 true).1
      (fun i j => (by decide : (0 : Nat) < 2 ^ 31)),
   (C5_bufferLogging_query initRings TRI_log_level_e.INFO 0 true).2⟩
